import Mathlib

/-!
Verification of the CADGen parameter-extraction pipeline.

Shallow embedding of the pipeline sources:
  * `src/generator.py`  — `EnhancedTemplateGenerator` (pattern extractor),
  * `src/validator.py`  — `validate_params` and its two paths,
  * `src/llm_client.py` — `_extract_json_balanced` and
    `LocalLLMClient.extract_parameters`,
  * `src/cli.py`        — the orchestrator's validation step.

Python dictionaries are modelled as insertion-ordered association lists
(`PyDict`); Python values as `PyVal`, where `PyVal.bool` counts as an `int`
for `isinstance` checks exactly as in CPython (`bool` is a subclass of
`int`).  Python floats are modelled as rationals: only ordering against 0
matters to the validator.  The regular expressions of `generator.py` are
transcribed into a small regex AST (`RE`) whose backtracking matcher
`reMatch` mirrors CPython `re` semantics on the constructs those patterns
use: literal runs, the classes \d and \s, greedy +, * and ?, ordered
alternation, and capture groups (every capture in the source is a `(\d+)`).
`reSearch` mirrors `re.search`: leftmost starting position first, and at a
given position the backtracking order of the pattern.
-/

/-- Python value, as far as the pipeline inspects one. -/
inductive PyVal where
  | str (s : String)
  | int (n : Int)
  | bool (b : Bool)
  | float (q : Rat)
  | list (xs : List PyVal)
  | pynone

/-- Python dict with string keys: insertion-ordered association list. -/
abbrev PyDict := List (String × PyVal)

/-- `d[k] = v`: update in place when the key exists, append otherwise. -/
def dictSet : PyDict → String → PyVal → PyDict
  | [], k, v => [(k, v)]
  | (k0, v0) :: rest, k, v =>
      if k0 = k then (k0, v) :: rest else (k0, v0) :: dictSet rest k v

/-- `d.get(k)` / `d[k]` lookup. -/
def dictGet : PyDict → String → Option PyVal
  | [], _ => Option.none
  | (k0, v0) :: rest, k => if k0 = k then some v0 else dictGet rest k

/-- `k in d`. -/
def dictHas (d : PyDict) (k : String) : Bool := (dictGet d k).isSome

/-- `str.lower()` (ASCII range, which is all the pipeline's inputs use). -/
def pyLower (s : String) : List Char := s.data.map Char.toLower

/-- `int(s)` on a string of decimal digits (the only use in the source:
the text captured by a `(\d+)` group). -/
def pyInt (s : String) : Int :=
  Int.ofNat (s.data.foldl (fun n c => 10 * n + (c.toNat - 48)) 0)

/-! ## Regex engine for the patterns of `generator.py` -/

/-- The two character classes the source patterns use. -/
inductive CClass where
  | digit
  | space
deriving DecidableEq

/-- Membership in \d and \s respectively (CPython `re` on the inputs used). -/
def CClass.memb : CClass → Char → Bool
  | CClass.digit, c => c.isDigit
  | CClass.space, c =>
      c = ' ' ∨ c = '\t' ∨ c = '\n' ∨ c = '\r' ∨ c = '\x0b' ∨ c = '\x0c'

/-- Regex AST covering the constructs of the source patterns. -/
inductive RE where
  | eps
  | lit (s : String)
  | plus (k : CClass)
  | star (k : CClass)
  | grpPlus (k : CClass)
  | seq (a b : RE)
  | alt (a b : RE)
  | opt (a : RE)

/-- Sequencing of a list of regex pieces. -/
def cat (l : List RE) : RE := l.foldr RE.seq RE.eps

/-- Match a literal run at the front; `some` the rest of the input. -/
def litMatch : List Char → List Char → Option (List Char)
  | [], s => some s
  | _ :: _, [] => Option.none
  | c :: cs, x :: xs => if x = c then litMatch cs xs else Option.none

/-- Length of the maximal front run of class-`k` characters. -/
def classRun (k : CClass) : List Char → Nat
  | [] => 0
  | c :: cs => if k.memb c then classRun k cs + 1 else 0

/-- All (taken, rest) splits of a front run of class-`k` characters,
greedy (longest) first, the empty split last: the backtracking order of a
greedy `*`. -/
def runSplits (k : CClass) (s : List Char) : List (List Char × List Char) :=
  (List.range (classRun k s + 1)).reverse.map (fun i => (s.take i, s.drop i))

/-- The non-empty splits only: the backtracking order of a greedy `+`. -/
def runSplitsPos (k : CClass) (s : List Char) : List (List Char × List Char) :=
  (runSplits k s).filter (fun p => !p.1.isEmpty)

/-- All ways the pattern can match a prefix of the input, in CPython
backtracking priority order; each entry is (rest of input, captures). -/
def reMatch : RE → List Char → List (List Char × List String)
  | RE.eps, s => [(s, [])]
  | RE.lit l, s =>
      match litMatch l.data s with
      | some r => [(r, [])]
      | Option.none => []
  | RE.plus k, s => (runSplitsPos k s).map (fun p => (p.2, []))
  | RE.star k, s => (runSplits k s).map (fun p => (p.2, []))
  | RE.grpPlus k, s => (runSplitsPos k s).map (fun p => (p.2, [String.mk p.1]))
  | RE.seq a b, s =>
      (reMatch a s).flatMap (fun p => (reMatch b p.1).map (fun q => (q.1, p.2 ++ q.2)))
  | RE.alt a b, s => reMatch a s ++ reMatch b s
  | RE.opt a, s => reMatch a s ++ [(s, [])]

/-- `re.search`: scan starting positions left to right, return the captures
of the first (highest-priority) match at the leftmost matching position. -/
def reSearch (re : RE) : List Char → Option (List String)
  | [] =>
      match reMatch re [] with
      | p :: _ => some p.2
      | [] => Option.none
  | c :: cs =>
      match reMatch re (c :: cs) with
      | p :: _ => some p.2
      | [] => reSearch re cs

/-! ## `src/generator.py` — the patterns table

Each definition transcribes the raw regex in `EnhancedTemplateGenerator.__init__`,
commented with the original. -/

-- r'rectangular?\s+(?:plate|bracket|frame)?\s*(\d+)(?:mm)?\s*(?:by|x)\s*(\d+)(?:mm)?'
def patterns_rectangle : RE := cat
  [RE.lit "rectangula", RE.opt (RE.lit "r"), RE.plus CClass.space,
   RE.opt (RE.alt (RE.lit "plate") (RE.alt (RE.lit "bracket") (RE.lit "frame"))),
   RE.star CClass.space, RE.grpPlus CClass.digit, RE.opt (RE.lit "mm"),
   RE.star CClass.space, RE.alt (RE.lit "by") (RE.lit "x"),
   RE.star CClass.space, RE.grpPlus CClass.digit, RE.opt (RE.lit "mm")]

-- r'square\s+(?:plate|bracket)?\s*(\d+)(?:mm)?'
def patterns_square : RE := cat
  [RE.lit "square", RE.plus CClass.space,
   RE.opt (RE.alt (RE.lit "plate") (RE.lit "bracket")),
   RE.star CClass.space, RE.grpPlus CClass.digit, RE.opt (RE.lit "mm")]

-- r'(?:circular|circle)\s+(?:outer\s+)?diameter\s+(\d+)(?:mm)?'
def patterns_circular : RE := cat
  [RE.alt (RE.lit "circular") (RE.lit "circle"), RE.plus CClass.space,
   RE.opt (cat [RE.lit "outer", RE.plus CClass.space]),
   RE.lit "diameter", RE.plus CClass.space, RE.grpPlus CClass.digit,
   RE.opt (RE.lit "mm")]

-- r'inner\s+diameter\s+(\d+)(?:mm)?'
def patterns_inner_diameter : RE := cat
  [RE.lit "inner", RE.plus CClass.space, RE.lit "diameter",
   RE.plus CClass.space, RE.grpPlus CClass.digit, RE.opt (RE.lit "mm")]

-- r'(\d+)\s+(?:circular\s+)?(?:bolt\s+)?holes?'
def patterns_hole_count : RE := cat
  [RE.grpPlus CClass.digit, RE.plus CClass.space,
   RE.opt (cat [RE.lit "circular", RE.plus CClass.space]),
   RE.opt (cat [RE.lit "bolt", RE.plus CClass.space]),
   RE.lit "hole", RE.opt (RE.lit "s")]

-- r'holes?\s+(\d+)(?:mm)?\s+diameter'
def patterns_hole_diameter : RE := cat
  [RE.lit "hole", RE.opt (RE.lit "s"), RE.plus CClass.space,
   RE.grpPlus CClass.digit, RE.opt (RE.lit "mm"), RE.plus CClass.space,
   RE.lit "diameter"]

-- r'(\d+)(?:mm)?\s+(?:from|offset|at)\s+(?:each\s+)?corners?'
def patterns_corner_offset : RE := cat
  [RE.grpPlus CClass.digit, RE.opt (RE.lit "mm"), RE.plus CClass.space,
   RE.alt (RE.lit "from") (RE.alt (RE.lit "offset") (RE.lit "at")),
   RE.plus CClass.space, RE.opt (cat [RE.lit "each", RE.plus CClass.space]),
   RE.lit "corner", RE.opt (RE.lit "s")]

-- r'(\d+)(?:mm)?\s+(?:pitch\s+circle|PCD)'
def patterns_pcd : RE := cat
  [RE.grpPlus CClass.digit, RE.opt (RE.lit "mm"), RE.plus CClass.space,
   RE.alt (cat [RE.lit "pitch", RE.plus CClass.space, RE.lit "circle"]) (RE.lit "PCD")]

-- r'center\s+hole\s+(\d+)(?:mm)?\s+diameter'
def patterns_center_hole : RE := cat
  [RE.lit "center", RE.plus CClass.space, RE.lit "hole", RE.plus CClass.space,
   RE.grpPlus CClass.digit, RE.opt (RE.lit "mm"), RE.plus CClass.space,
   RE.lit "diameter"]

-- r'L-shaped'  (note the capital L, exactly as in the source)
def patterns_l_bracket : RE := RE.lit "L-shaped"

-- r'T-shaped'  (note the capital T, exactly as in the source)
def patterns_t_bracket : RE := RE.lit "T-shaped"

-- r'triangular'
def patterns_triangular : RE := RE.lit "triangular"

-- r'(\d+)(?:mm)?\s+radius\s+fillet'
def patterns_fillet : RE := cat
  [RE.grpPlus CClass.digit, RE.opt (RE.lit "mm"), RE.plus CClass.space,
   RE.lit "radius", RE.plus CClass.space, RE.lit "fillet"]

-- The table also holds 'slot' and 'cutout' patterns, but `parse_description`
-- never searches them; they set no field and are not transcribed.

/-- Python `needle in s` substring containment on strings. -/
def pyContains : List Char → List Char → Bool
  | s, needle =>
    match s with
    | [] => needle.isEmpty
    | _ :: cs => (litMatch needle s).isSome || pyContains cs needle

/-- The comparison `result['type'] == t` of `parse_description` (the field
is always a `str` at those program points). -/
def typeIs (result : PyDict) (t : String) : Bool :=
  match dictGet result "type" with
  | some (PyVal.str s) => s = t
  | _ => false

/-- A `re.search` + `if found: result[key] = int(group(1))` step of
`parse_description` (all its single-group patterns go through this shape). -/
def setIfMatch (result : PyDict) (key : String) (pat : RE) (desc : List Char) : PyDict :=
  match reSearch pat desc with
  | some (g1 :: _) => dictSet result key (PyVal.int (pyInt g1))
  | _ => result

/-- The shape-type cascade of `parse_description` (src/generator.py lines
36-48): ordered first-match-wins checks writing `result['type']`. -/
def shapeStep (result : PyDict) (desc : List Char) : PyDict :=
  if (reSearch patterns_l_bracket desc).isSome then
    dictSet result "type" (PyVal.str "l_bracket")
  else if (reSearch patterns_t_bracket desc).isSome then
    dictSet result "type" (PyVal.str "t_bracket")
  else if (reSearch patterns_triangular desc).isSome then
    dictSet result "type" (PyVal.str "triangular")
  else if pyContains desc "flange".data then
    dictSet result "type" (PyVal.str "flange")
  else if pyContains desc "square".data then
    dictSet result "type" (PyVal.str "square")
  else
    dictSet result "type" (PyVal.str "rectangular")

/-- The rectangular/bracket dimension block (src/generator.py lines 51-55). -/
def rectBlock (result : PyDict) (desc : List Char) : PyDict :=
  if typeIs result "rectangular" ∨ typeIs result "l_bracket"
      ∨ typeIs result "t_bracket" then
    match reSearch patterns_rectangle desc with
    | some (g1 :: g2 :: _) =>
        dictSet (dictSet result "width" (PyVal.int (pyInt g1)))
          "height" (PyVal.int (pyInt g2))
    | _ => result
  else result

/-- The square dimension block (src/generator.py lines 57-60):
`result['width'] = result['height'] = int(...)` writes `width` first. -/
def squareBlock (result : PyDict) (desc : List Char) : PyDict :=
  if typeIs result "square" then
    match reSearch patterns_square desc with
    | some (g1 :: _) =>
        dictSet (dictSet result "width" (PyVal.int (pyInt g1)))
          "height" (PyVal.int (pyInt g1))
    | _ => result
  else result

/-- The flange dimension block (src/generator.py lines 62-68). -/
def flangeBlock (result : PyDict) (desc : List Char) : PyDict :=
  if typeIs result "flange" then
    let result := setIfMatch result "outer_diameter" patterns_circular desc
    setIfMatch result "inner_diameter" patterns_inner_diameter desc
  else result

/-- `EnhancedTemplateGenerator.parse_description` (src/generator.py lines 32-99). -/
def parse_description (description : String) : PyDict :=
  let desc := pyLower description
  let result : PyDict := [("type", PyVal.str "unknown"), ("features", PyVal.list [])]
  -- Detect shape type
  let result := shapeStep result desc
  -- Parse dimensions
  let result := rectBlock result desc
  let result := squareBlock result desc
  let result := flangeBlock result desc
  -- Parse holes
  let result := setIfMatch result "hole_count" patterns_hole_count desc
  let result := setIfMatch result "hole_diameter" patterns_hole_diameter desc
  -- Center hole
  let result := setIfMatch result "center_hole_diameter" patterns_center_hole desc
  -- Offset
  let result := setIfMatch result "corner_offset" patterns_corner_offset desc
  -- PCD
  let result := setIfMatch result "pcd" patterns_pcd desc
  -- Fillet
  let result := setIfMatch result "fillet_radius" patterns_fillet desc
  result

/-! ## `src/llm_client.py` — balanced-brace extraction -/

/-- `text.find(c)`: index of the first occurrence, `none` for Python's -1. -/
def pyFind : List Char → Char → Option Nat
  | [], _ => Option.none
  | x :: xs, c => if x = c then some 0 else (pyFind xs c).map (· + 1)

/-- The walk of `_extract_json_balanced` over the suffix starting at the
first opening brace: `i` is the number of characters already consumed from
that suffix, `brace_count` the running counter; `some n` means the loop
returned `text[start:start+n]`, mirroring `return text[start:i + 1]`. -/
def extractLoop : List Char → Int → Nat → Option Nat
  | [], _, _ => Option.none
  | c :: rest, brace_count, i =>
      if c = '{' then extractLoop rest (brace_count + 1) (i + 1)
      else if c = '}' then
        let brace_count := brace_count - 1
        if brace_count = 0 then some (i + 1) else extractLoop rest brace_count (i + 1)
      else extractLoop rest brace_count (i + 1)

/-- `_extract_json_balanced` (src/llm_client.py lines 39-63). -/
def _extract_json_balanced (text : String) : Option String :=
  match pyFind text.data '{' with
  | Option.none => Option.none
  | some start =>
      match extractLoop (text.data.drop start) 0 0 with
      | Option.none => Option.none
      | some n => some (String.mk ((text.data.drop start).take n))

/-! ## `src/validator.py` -/

/-- `VALID_TYPES` (src/validator.py line 35). -/
def VALID_TYPES : List String :=
  ["rectangular", "square", "flange", "l_bracket", "t_bracket", "triangular", "unknown"]

/-- `', '.join(sorted(VALID_TYPES))` as evaluated by the source. -/
def sortedValidTypes : String :=
  "flange, l_bracket, rectangular, square, t_bracket, triangular, unknown"

/-- `type(value).__name__` for the embedded values. -/
def typeName : PyVal → String
  | PyVal.str _ => "str"
  | PyVal.int _ => "int"
  | PyVal.bool _ => "bool"
  | PyVal.float _ => "float"
  | PyVal.list _ => "list"
  | PyVal.pynone => "NoneType"

/-- `isinstance(value, (int, float))`: in CPython `bool` is a subclass of
`int`, so booleans pass this check. -/
def isNumberInst : PyVal → Bool
  | PyVal.int _ => true
  | PyVal.bool _ => true
  | PyVal.float _ => true
  | _ => false

/-- `isinstance(value, int)`: again `bool` passes. -/
def isIntInst : PyVal → Bool
  | PyVal.int _ => true
  | PyVal.bool _ => true
  | _ => false

/-- The numeric value used by the `value < 0` comparisons (`True == 1`,
`False == 0` in CPython). -/
def numValue : PyVal → Rat
  | PyVal.int n => (n : Rat)
  | PyVal.bool b => if b then 1 else 0
  | PyVal.float q => q
  | _ => 0

/-- `str(value)` as interpolated into the failure messages, for the value
shapes those messages can see. -/
def pyStr : PyVal → String
  | PyVal.str s => s
  | PyVal.int n => toString n
  | PyVal.bool b => if b then "True" else "False"
  | PyVal.float _ => "<float>"
  | PyVal.list _ => "<list>"
  | PyVal.pynone => "None"

/-- `numeric_fields` (src/validator.py lines 73-77). -/
def numeric_fields : List String :=
  ["width", "height", "outer_diameter", "inner_diameter",
   "hole_diameter", "corner_offset", "center_hole_diameter",
   "pcd", "fillet_radius"]

/-- `integer_fields` (src/validator.py line 87). -/
def integer_fields : List String := ["hole_count"]

/-- One turn of the numeric-fields loop of `_validate_conservative`:
the errors it appends for `field`. -/
def numericFieldErrors (params : PyDict) (field : String) : List String :=
  match dictGet params field with
  | Option.none => []
  | some value =>
      if ¬ isNumberInst value then
        ["Field '" ++ field ++ "' must be a number, got " ++ typeName value]
      else if numValue value < 0 then
        ["Field '" ++ field ++ "' must be non-negative, got " ++ pyStr value]
      else []

/-- One turn of the integer-fields loop of `_validate_conservative`. -/
def integerFieldErrors (params : PyDict) (field : String) : List String :=
  match dictGet params field with
  | Option.none => []
  | some value =>
      if ¬ isIntInst value then
        ["Field '" ++ field ++ "' must be an integer, got " ++ typeName value]
      else if numValue value < 0 then
        ["Field '" ++ field ++ "' must be non-negative, got " ++ pyStr value]
      else []

/-- The required-`type` check of `_validate_conservative`
(src/validator.py lines 63-70). -/
def typeFieldErrors (params : PyDict) : List String :=
  match dictGet params "type" with
  | Option.none => ["Missing required field: 'type'"]
  | some (PyVal.str shape_type) =>
      if shape_type ∈ VALID_TYPES then []
      else ["Invalid type '" ++ shape_type ++ "'. Must be one of: " ++ sortedValidTypes]
  | some v => ["Field 'type' must be a string, got " ++ typeName v]

/-- The `features` check of `_validate_conservative`
(src/validator.py lines 97-99). -/
def featuresFieldErrors (params : PyDict) : List String :=
  match dictGet params "features" with
  | Option.none => []
  | some (PyVal.list _) => []
  | some v => ["Field 'features' must be a list, got " ++ typeName v]

/-- `_validate_conservative` (src/validator.py lines 54-101).  The
`isinstance(params, dict)` guard is discharged by the embedding's types.
Errors accumulate in source order: required `type`, the numeric fields,
the integer fields, `features`. -/
def _validate_conservative (params : PyDict) : Bool × List String :=
  let errors := typeFieldErrors params
    ++ numeric_fields.flatMap (numericFieldErrors params)
    ++ integer_fields.flatMap (integerFieldErrors params)
    ++ featuresFieldErrors params
  (errors.length = 0, errors)

/-- Outcome of the external `jsonschema.validate` call: it either returns,
or raises a single `ValidationError`, or a single `SchemaError`. -/
inductive JsOutcome where
  | ok
  | validationError (message : String)
  | schemaError (message : String)

/-- `_validate_with_jsonschema` (src/validator.py lines 38-51),
parameterized by the external library call. -/
def _validate_with_jsonschema (js : PyDict → JsOutcome) (params : PyDict) :
    Bool × List String :=
  match js params with
  | JsOutcome.ok => (true, [])
  | JsOutcome.validationError m => (false, [m])
  | JsOutcome.schemaError m => (false, ["Schema error: " ++ m])

/-- `validate_params` (src/validator.py lines 104-132), parameterized by
whether `import jsonschema` succeeds and by the library call itself.  The
`params is None` / non-dict guards are discharged by the embedding's types. -/
def validate_params (jsonschemaAvailable : Bool) (js : PyDict → JsOutcome)
    (params : PyDict) : Bool × List String :=
  if dictHas params "error" then
    (false, ["params contains error: " ++ pyStr ((dictGet params "error").getD PyVal.pynone)])
  else if jsonschemaAvailable then _validate_with_jsonschema js params
  else _validate_conservative params

/-- Model of the external jsonschema library's surface relevant here: a
`jsonschema.validate(instance, CAD_PARAMS_SCHEMA)` call raises at most one
`ValidationError` per call (it does not accumulate), and raises one
whenever the instance violates the schema.  The single reported violation
is modelled as the first one the conservative checker finds against the
same schema. -/
def jsonschemaModel (params : PyDict) : JsOutcome :=
  match (_validate_conservative params).2 with
  | [] => JsOutcome.ok
  | m :: _ => JsOutcome.validationError m

/-! ## `src/llm_client.py` — `LocalLLMClient.extract_parameters` -/

/-- The pieces of runtime state `extract_parameters` depends on:
whether `self.model`/`self.tokenizer` are loaded, the outcome of
`self._generate(prompt)` (`Except.error` models a raised exception, with
`str(e)`), the outcome of `json.loads(json_str)` (`Except.error` models
`json.JSONDecodeError`, with `str(e)`; a successful parse of a text that
starts with an opening brace is a dict), and the jsonschema availability
and library call that `validate_params` consults. -/
structure LLMEnv where
  modelLoaded : Bool
  generate : String → Except String String
  jsonLoads : String → Except String PyDict
  jsonschemaAvailable : Bool
  js : PyDict → JsOutcome

/-- `LocalLLMClient._build_prompt` (src/llm_client.py lines 124-153). -/
def _build_prompt (description : String) : String :=
  "You are a CAD parameter extraction system. Extract parameters from the description below.\n\nIMPORTANT: Return EXACTLY ONE valid JSON object with no additional text, explanation, or examples.\n\nValid JSON keys:\n- type: one of \"rectangular\", \"square\", \"flange\", \"l_bracket\", \"t_bracket\", \"triangular\"\n- width: number in mm (for rectangular/square plates)\n- height: number in mm (for rectangular/square plates)\n- outer_diameter: number in mm (for flanges)\n- inner_diameter: number in mm (for flanges)\n- hole_count: integer number of holes\n- hole_diameter: number in mm\n- corner_offset: number in mm (distance from corners)\n- center_hole_diameter: number in mm\n- pcd: number in mm (pitch circle diameter)\n- fillet_radius: number in mm\n\nDescription: " ++ description ++ "\n\nJSON:"

/-- `result["validation_errors"].append(msg)`: the metadata key is a list
by construction at every call site. -/
def appendError (d : PyDict) (msg : String) : PyDict :=
  match dictGet d "validation_errors" with
  | some (PyVal.list xs) => dictSet d "validation_errors" (PyVal.list (xs ++ [PyVal.str msg]))
  | _ => d

/-- The fallback merge of `extract_parameters` (src/llm_client.py lines
264-267): every field of the fallback result except the metadata keys is
copied into `result`. -/
def mergeFallback (result : PyDict) (fb : PyDict) : PyDict :=
  fb.foldl
    (fun acc kv =>
      if kv.1 = "_source" ∨ kv.1 = "validation_errors" ∨ kv.1 = "raw_llm" then acc
      else dictSet acc kv.1 kv.2)
    result

/-- The generative attempt of `LocalLLMClient.extract_parameters`
(src/llm_client.py lines 212-258): `Sum.inl` is the early `return params`
of the validated-LLM success path; `Sum.inr` carries `result` (with the
failure metadata it has accumulated) into the fallback merge. -/
def llmAttempt (env : LLMEnv) (description : String) : PyDict ⊕ PyDict :=
  let result : PyDict :=
    [("_source", PyVal.str "fallback_parser"), ("validation_errors", PyVal.list [])]
  if env.modelLoaded then
      match env.generate (_build_prompt description) with
      | Except.error e => Sum.inr (appendError result ("LLM error: " ++ e))
      | Except.ok raw_output =>
          match _extract_json_balanced raw_output with
          | Option.none =>
              Sum.inr (appendError (dictSet result "raw_llm" (PyVal.str (raw_output.take 500)))
                "No JSON object found in LLM output")
          | some json_str =>
              match env.jsonLoads json_str with
              | Except.error e =>
                  Sum.inr (appendError (dictSet result "raw_llm" (PyVal.str (raw_output.take 500)))
                    ("JSON decode error: " ++ e))
              | Except.ok params =>
                  let v := validate_params env.jsonschemaAvailable env.js params
                  if v.1 then
                    Sum.inl (dictSet (dictSet params "_source" (PyVal.str "llm"))
                      "validation_errors" (PyVal.list []))
                  else
                    Sum.inr (dictSet (dictSet result "raw_llm" (PyVal.str (raw_output.take 500)))
                      "validation_errors" (PyVal.list (v.2.map PyVal.str)))
    else Sum.inr result

/-- `LocalLLMClient.extract_parameters` (src/llm_client.py lines 199-269):
the generative attempt, then on any failure the fallback merge with the
rule-based parse of the same description. -/
def extract_parameters (env : LLMEnv) (description : String) : PyDict :=
  match llmAttempt env description with
  | Sum.inl params => params
  | Sum.inr r => mergeFallback r (parse_description description)

/-! ## `src/cli.py` — the orchestrator's validation step -/

/-- The validate-and-attach step of `cli.main` (src/cli.py lines 158-165):
unless `--no-validate` was passed, run the Schema Validator on the obtained
parameter set; on failure assign the validator's error list to
`params["validation_errors"]` and keep going (the params are still
emitted). -/
def cliValidateStep (noValidate : Bool) (jsonschemaAvailable : Bool)
    (js : PyDict → JsOutcome) (params : PyDict) : PyDict :=
  if ¬ noValidate then
    let v := validate_params jsonschemaAvailable js params
    if ¬ v.1 then dictSet params "validation_errors" (PyVal.list (v.2.map PyVal.str))
    else params
  else params

/-! ## Claim C1 — balanced-brace extraction -/

/-- The +1 / -1 / 0 weight of one character in the nesting counter. -/
def braceDelta (c : Char) : Int :=
  if c = '{' then 1 else if c = '}' then -1 else 0

/-- Sum of `braceDelta` over a list: the nesting counter after walking it. -/
def braceSum : List Char → Int
  | [] => 0
  | c :: rest => braceDelta c + braceSum rest

lemma braceDelta_open : braceDelta '{' = 1 := rfl

lemma braceDelta_close : braceDelta '}' = -1 := rfl

lemma pyFind_cons (x : Char) (xs : List Char) (c : Char) :
    pyFind (x :: xs) c = if x = c then some 0 else (pyFind xs c).map (· + 1) := rfl

lemma pyFind_eq_none {c : Char} {s : List Char} (h : c ∉ s) :
    pyFind s c = Option.none := by
  induction s with
  | nil => rfl
  | cons x xs ih =>
    simp only [List.mem_cons, not_or] at h
    have hx : ¬ x = c := fun hx => h.1 hx.symm
    simp [pyFind_cons, hx, ih h.2]

lemma pyFind_drop {s : List Char} {c : Char} : ∀ {k : Nat},
    pyFind s c = some k → ∃ rest, s.drop k = c :: rest := by
  induction s with
  | nil => intro k h; simp [pyFind] at h
  | cons x xs ih =>
    intro k h
    rw [pyFind_cons] at h
    split_ifs at h with hx
    · subst hx
      cases h
      exact ⟨xs, rfl⟩
    · cases hh : pyFind xs c with
      | none => rw [hh] at h; cases h
      | some j =>
          rw [hh] at h
          simp only [Option.map_some', Option.some.injEq] at h
          subst h
          obtain ⟨rest, hr⟩ := ih hh
          exact ⟨rest, by simpa [List.drop_succ_cons] using hr⟩

lemma pyFind_take {s : List Char} {c : Char} : ∀ {k : Nat},
    pyFind s c = some k → c ∉ s.take k := by
  induction s with
  | nil => intro k h; simp [pyFind] at h
  | cons x xs ih =>
    intro k h
    rw [pyFind_cons] at h
    split_ifs at h with hx
    · cases h
      simp
    · cases hh : pyFind xs c with
      | none => rw [hh] at h; cases h
      | some j =>
          rw [hh] at h
          simp only [Option.map_some', Option.some.injEq] at h
          subst h
          simp only [List.take_succ_cons, List.mem_cons, not_or]
          exact ⟨fun hc => hx hc.symm, ih hh⟩

lemma extractLoop_cons (c : Char) (rest : List Char) (brace_count : Int) (i : Nat) :
    extractLoop (c :: rest) brace_count i =
      if c = '{' then extractLoop rest (brace_count + 1) (i + 1)
      else if c = '}' then
        (if brace_count - 1 = 0 then some (i + 1) else extractLoop rest (brace_count - 1) (i + 1))
      else extractLoop rest brace_count (i + 1) := rfl

lemma extractLoop_eq_none (s : List Char) : ∀ (count : Int) (i : Nat),
    (∀ n : Nat, count + braceSum (s.take n) ≠ 0) →
    extractLoop s count i = Option.none := by
  induction s with
  | nil => intro count i _; rfl
  | cons c rest ih =>
    intro count i h
    rw [extractLoop_cons]
    split_ifs with h1 h2 h3
    · apply ih
      intro n
      have := h (n + 1)
      simp only [List.take_succ_cons, braceSum, braceDelta, if_pos h1] at this
      omega
    · exfalso
      have := h 1
      simp only [List.take_succ_cons, List.take_zero, braceSum, braceDelta,
        if_neg h1, if_pos h2] at this
      omega
    · apply ih
      intro n
      have := h (n + 1)
      simp only [List.take_succ_cons, braceSum, braceDelta, if_neg h1, if_pos h2] at this
      omega
    · apply ih
      intro n
      have := h (n + 1)
      simp only [List.take_succ_cons, braceSum, braceDelta, if_neg h1, if_neg h2] at this
      omega

lemma extractLoop_eq_some (s : List Char) : ∀ (count : Int) (i : Nat) (n : Nat),
    0 < count → 0 < n → n ≤ s.length →
    count + braceSum (s.take n) = 0 →
    (∀ m : Nat, m < n → count + braceSum (s.take m) ≠ 0) →
    extractLoop s count i = some (i + n) := by
  induction s with
  | nil =>
    intro count i n _ h0 hlen _ _
    simp at hlen
    omega
  | cons c rest ih =>
    intro count i n hc h0 hlen hz hmin
    rcases n with _ | n'
    · omega
    rw [extractLoop_cons]
    split_ifs with h1 h2 h3
    · -- c = '{'
      rcases n' with _ | n''
      · exfalso
        simp only [List.take_succ_cons, List.take_zero, braceSum, braceDelta, if_pos h1] at hz
        omega
      · have goal := ih (count + 1) (i + 1) (n'' + 1) (by omega) (by omega)
          (by simpa using hlen)
          (by
            simp only [List.take_succ_cons, braceSum, braceDelta, if_pos h1] at hz
            omega)
          (by
            intro m hm
            have := hmin (m + 1) (by omega)
            simp only [List.take_succ_cons, braceSum, braceDelta, if_pos h1] at this
            omega)
        rw [goal]
        congr 1
        omega
    · -- c = '}' and the counter hits zero: must be the end, n = 1
      rcases n' with _ | n''
      · rfl
      · exfalso
        have := hmin 1 (by omega)
        simp only [List.take_succ_cons, List.take_zero, braceSum, braceDelta,
          if_neg h1, if_pos h2] at this
        omega
    · -- c = '}' and the counter stays nonzero
      rcases n' with _ | n''
      · exfalso
        simp only [List.take_succ_cons, List.take_zero, braceSum, braceDelta,
          if_neg h1, if_pos h2] at hz
        omega
      · have goal := ih (count - 1) (i + 1) (n'' + 1) (by omega) (by omega)
          (by simpa using hlen)
          (by
            simp only [List.take_succ_cons, braceSum, braceDelta, if_neg h1, if_pos h2] at hz
            omega)
          (by
            intro m hm
            have := hmin (m + 1) (by omega)
            simp only [List.take_succ_cons, braceSum, braceDelta, if_neg h1, if_pos h2] at this
            omega)
        rw [goal]
        congr 1
        omega
    · -- any other character
      rcases n' with _ | n''
      · exfalso
        simp only [List.take_succ_cons, List.take_zero, braceSum, braceDelta,
          if_neg h1, if_neg h2] at hz
        omega
      · have goal := ih count (i + 1) (n'' + 1) (by omega) (by omega)
          (by simpa using hlen)
          (by
            simp only [List.take_succ_cons, braceSum, braceDelta, if_neg h1, if_neg h2] at hz
            omega)
          (by
            intro m hm
            have := hmin (m + 1) (by omega)
            simp only [List.take_succ_cons, braceSum, braceDelta, if_neg h1, if_neg h2] at this
            omega)
        rw [goal]
        congr 1
        omega

/-- C1: balanced-brace extraction.  If the input has no opening brace the
extractor returns none; otherwise, writing `start` for the index `find`
returns (proved to be the first opening brace), the extractor walks the
suffix keeping a plus-one / minus-one nesting counter and returns the prefix of the
suffix ending at the first position where the counter returns to zero;
when the counter never returns to zero it returns none.  The six concrete
examples of the spec close the statement. -/
theorem C1_extract_json_balanced :
    (∀ text : String, '{' ∉ text.data → _extract_json_balanced text = Option.none)
  ∧ (∀ (text : String) (start : Nat), pyFind text.data '{' = some start →
       '{' ∉ text.data.take start
     ∧ ((∀ n : Nat, 0 < n → braceSum ((text.data.drop start).take n) ≠ 0) →
          _extract_json_balanced text = Option.none)
     ∧ (∀ n : Nat, 0 < n → n ≤ (text.data.drop start).length →
          braceSum ((text.data.drop start).take n) = 0 →
          (∀ m : Nat, 0 < m → m < n → braceSum ((text.data.drop start).take m) ≠ 0) →
          _extract_json_balanced text = some (String.mk ((text.data.drop start).take n))))
  ∧ _extract_json_balanced "\x7b\"a\":1\x7d" = some "\x7b\"a\":1\x7d"
  ∧ _extract_json_balanced "prefix \x7b\"a\":1\x7d" = some "\x7b\"a\":1\x7d"
  ∧ _extract_json_balanced "\x7b\"a\":1\x7d suffix" = some "\x7b\"a\":1\x7d"
  ∧ _extract_json_balanced "\x7b\"a\": \x7b\"b\":1\x7d\x7d \x7b\"c\":2\x7d"
      = some "\x7b\"a\": \x7b\"b\":1\x7d\x7d"
  ∧ _extract_json_balanced "\x7b\"a\":1" = Option.none
  ∧ _extract_json_balanced "no braces here" = Option.none := by
  refine ⟨?_, ?_, by rfl, by rfl, by rfl, by rfl, by rfl, by rfl⟩
  · intro text h
    simp [_extract_json_balanced, pyFind_eq_none h]
  · intro text start hfind
    obtain ⟨rest, hdrop⟩ := pyFind_drop hfind
    have hstep : extractLoop ('{' :: rest) 0 0 = extractLoop rest 1 1 := rfl
    refine ⟨pyFind_take hfind, ?_, ?_⟩
    · intro h
      simp only [_extract_json_balanced, hfind]
      rw [hdrop, hstep, extractLoop_eq_none rest 1 1]
      intro n
      have := h (n + 1) (by omega)
      rw [hdrop] at this
      simp only [List.take_succ_cons, braceSum, braceDelta_open] at this
      omega
    · intro n hn hlen hz hmin
      simp only [_extract_json_balanced, hfind]
      rw [hdrop, hstep]
      rw [hdrop] at hz hmin hlen
      simp only [List.length_cons] at hlen
      rcases n with _ | n'
      · exact absurd hn (lt_irrefl 0)
      rcases n' with _ | n''
      · exfalso
        simp only [List.take_succ_cons, List.take_zero, braceSum, braceDelta_open] at hz
        omega
      have hz' : (1 : Int) + braceSum (rest.take (n'' + 1)) = 0 := by
        simp only [List.take_succ_cons, braceSum, braceDelta_open] at hz
        omega
      have hmin' : ∀ m : Nat, m < n'' + 1 → (1 : Int) + braceSum (rest.take m) ≠ 0 := by
        intro m hm
        have := hmin (m + 1) (by omega) (by omega)
        simp only [List.take_succ_cons, braceSum, braceDelta_open] at this
        omega
      have hloop := extractLoop_eq_some rest 1 1 (n'' + 1) (by norm_num) (by omega)
        (by omega) hz' hmin'
      rw [hloop]
      have he : 1 + (n'' + 1) = n'' + 1 + 1 := by omega
      rw [he]

/-! ## Dictionary lemmas -/

lemma dictGet_dictSet_self (d : PyDict) (k : String) (v : PyVal) :
    dictGet (dictSet d k v) k = some v := by
  induction d with
  | nil => simp [dictSet, dictGet]
  | cons kv rest ih =>
    obtain ⟨k0, v0⟩ := kv
    by_cases h : k0 = k
    · subst h; simp [dictSet, dictGet]
    · simp [dictSet, dictGet, h, ih]

lemma dictGet_dictSet_ne (d : PyDict) (k k' : String) (v : PyVal) (h : k' ≠ k) :
    dictGet (dictSet d k v) k' = dictGet d k' := by
  have h' : ¬ k = k' := fun hh => h hh.symm
  induction d with
  | nil => simp [dictSet, dictGet, h']
  | cons kv rest ih =>
    obtain ⟨k0, v0⟩ := kv
    by_cases h0 : k0 = k
    · subst h0; simp [dictSet, dictGet, h']
    · by_cases h1 : k0 = k'
      · subst h1; simp [dictSet, dictGet, h0]
      · simp [dictSet, dictGet, h0, h1, ih]

lemma dictGet_setIfMatch_ne (d : PyDict) (k : String) (pat : RE) (desc : List Char)
    (k' : String) (h : k' ≠ k) :
    dictGet (setIfMatch d k pat desc) k' = dictGet d k' := by
  unfold setIfMatch
  cases hr : reSearch pat desc with
  | none => rfl
  | some l =>
    cases l with
    | nil => rfl
    | cons g1 gs => exact dictGet_dictSet_ne d k k' _ h

lemma dictGet_shapeStep_ne (r : PyDict) (desc : List Char) (k' : String)
    (h : k' ≠ "type") :
    dictGet (shapeStep r desc) k' = dictGet r k' := by
  unfold shapeStep
  split_ifs <;> exact dictGet_dictSet_ne r "type" k' _ h

lemma dictGet_rectBlock_ne (r : PyDict) (desc : List Char) (k' : String)
    (h1 : k' ≠ "width") (h2 : k' ≠ "height") :
    dictGet (rectBlock r desc) k' = dictGet r k' := by
  unfold rectBlock
  split_ifs
  · cases hr : reSearch patterns_rectangle desc with
    | none => rfl
    | some l =>
      cases l with
      | nil => rfl
      | cons g1 gs =>
        cases gs with
        | nil => rfl
        | cons g2 gs' =>
          rw [dictGet_dictSet_ne _ _ _ _ h2, dictGet_dictSet_ne _ _ _ _ h1]
  · rfl

lemma dictGet_squareBlock_ne (r : PyDict) (desc : List Char) (k' : String)
    (h1 : k' ≠ "width") (h2 : k' ≠ "height") :
    dictGet (squareBlock r desc) k' = dictGet r k' := by
  unfold squareBlock
  split_ifs
  · cases hr : reSearch patterns_square desc with
    | none => rfl
    | some l =>
      cases l with
      | nil => rfl
      | cons g1 gs =>
        rw [dictGet_dictSet_ne _ _ _ _ h2, dictGet_dictSet_ne _ _ _ _ h1]
  · rfl

lemma dictGet_flangeBlock_ne (r : PyDict) (desc : List Char) (k' : String)
    (h1 : k' ≠ "outer_diameter") (h2 : k' ≠ "inner_diameter") :
    dictGet (flangeBlock r desc) k' = dictGet r k' := by
  unfold flangeBlock
  split_ifs
  · rw [dictGet_setIfMatch_ne _ _ _ _ _ h2, dictGet_setIfMatch_ne _ _ _ _ _ h1]
  · rfl

/-- The value the shape cascade writes into `result['type']`. -/
def shapeOf (desc : List Char) : String :=
  if (reSearch patterns_l_bracket desc).isSome then "l_bracket"
  else if (reSearch patterns_t_bracket desc).isSome then "t_bracket"
  else if (reSearch patterns_triangular desc).isSome then "triangular"
  else if pyContains desc "flange".data then "flange"
  else if pyContains desc "square".data then "square"
  else "rectangular"

lemma shapeStep_type (r : PyDict) (desc : List Char) :
    dictGet (shapeStep r desc) "type" = some (PyVal.str (shapeOf desc)) := by
  unfold shapeStep shapeOf
  split_ifs <;> rw [dictGet_dictSet_self]

lemma parse_description_type (d : String) :
    dictGet (parse_description d) "type" = some (PyVal.str (shapeOf (pyLower d))) := by
  unfold parse_description
  rw [dictGet_setIfMatch_ne _ _ _ _ _ (by simp),
    dictGet_setIfMatch_ne _ _ _ _ _ (by simp),
    dictGet_setIfMatch_ne _ _ _ _ _ (by simp),
    dictGet_setIfMatch_ne _ _ _ _ _ (by simp),
    dictGet_setIfMatch_ne _ _ _ _ _ (by simp),
    dictGet_setIfMatch_ne _ _ _ _ _ (by simp),
    dictGet_flangeBlock_ne _ _ _ (by simp) (by simp),
    dictGet_squareBlock_ne _ _ _ (by simp) (by simp),
    dictGet_rectBlock_ne _ _ _ (by simp) (by simp),
    shapeStep_type]

lemma parse_description_features (d : String) :
    dictGet (parse_description d) "features" = some (PyVal.list []) := by
  unfold parse_description
  rw [dictGet_setIfMatch_ne _ _ _ _ _ (by simp),
    dictGet_setIfMatch_ne _ _ _ _ _ (by simp),
    dictGet_setIfMatch_ne _ _ _ _ _ (by simp),
    dictGet_setIfMatch_ne _ _ _ _ _ (by simp),
    dictGet_setIfMatch_ne _ _ _ _ _ (by simp),
    dictGet_setIfMatch_ne _ _ _ _ _ (by simp),
    dictGet_flangeBlock_ne _ _ _ (by simp) (by simp),
    dictGet_squareBlock_ne _ _ _ (by simp) (by simp),
    dictGet_rectBlock_ne _ _ _ (by simp) (by simp),
    dictGet_shapeStep_ne _ _ _ (by simp)]
  rfl

/-! ## The dead L-shaped / T-shaped markers -/

lemma toLower_ne_L (c : Char) : Char.toLower c ≠ 'L' := by
  show (if c.toNat ≥ 65 ∧ c.toNat ≤ 90 then Char.ofNat (c.toNat + 32) else c) ≠ 'L'
  split_ifs with h
  · obtain ⟨h1, h2⟩ := h
    generalize c.toNat = n at h1 h2
    interval_cases n <;> decide
  · intro hc
    subst hc
    exact h (by decide)

lemma toLower_ne_T (c : Char) : Char.toLower c ≠ 'T' := by
  show (if c.toNat ≥ 65 ∧ c.toNat ≤ 90 then Char.ofNat (c.toNat + 32) else c) ≠ 'T'
  split_ifs with h
  · obtain ⟨h1, h2⟩ := h
    generalize c.toNat = n at h1 h2
    interval_cases n <;> decide
  · intro hc
    subst hc
    exact h (by decide)

lemma reSearch_cons (re : RE) (c : Char) (cs : List Char) :
    reSearch re (c :: cs) =
      match reMatch re (c :: cs) with
      | p :: _ => some p.2
      | [] => reSearch re cs := rfl

lemma reSearch_lit_head_none (c0 : Char) (ts : List Char) :
    ∀ s : List Char, (∀ c ∈ s, c ≠ c0) →
    reSearch (RE.lit (String.mk (c0 :: ts))) s = Option.none := by
  intro s
  induction s with
  | nil => intro _; rfl
  | cons c cs ih =>
    intro h
    have hc : c ≠ c0 := h c (List.mem_cons_self c cs)
    have hm : reMatch (RE.lit (String.mk (c0 :: ts))) (c :: cs) = [] := by
      show (match litMatch (c0 :: ts) (c :: cs) with
        | some r => [(r, ([] : List String))]
        | Option.none => []) = []
      rw [show litMatch (c0 :: ts) (c :: cs)
            = if c = c0 then litMatch ts cs else Option.none from rfl, if_neg hc]
    rw [reSearch_cons, hm]
    exact ih (fun x hx => h x (List.mem_cons_of_mem c hx))

lemma pyLower_no_L (d : String) : ∀ c ∈ pyLower d, c ≠ 'L' := by
  intro c hc
  simp only [pyLower, List.mem_map] at hc
  obtain ⟨x, _, hx⟩ := hc
  rw [← hx]
  exact toLower_ne_L x

lemma pyLower_no_T (d : String) : ∀ c ∈ pyLower d, c ≠ 'T' := by
  intro c hc
  simp only [pyLower, List.mem_map] at hc
  obtain ⟨x, _, hx⟩ := hc
  rw [← hx]
  exact toLower_ne_T x

lemma reSearch_l_bracket_lower (d : String) :
    reSearch patterns_l_bracket (pyLower d) = Option.none := by
  have : patterns_l_bracket = RE.lit (String.mk ('L' :: "-shaped".data)) := rfl
  rw [this]
  exact reSearch_lit_head_none 'L' "-shaped".data (pyLower d) (pyLower_no_L d)

lemma reSearch_t_bracket_lower (d : String) :
    reSearch patterns_t_bracket (pyLower d) = Option.none := by
  have : patterns_t_bracket = RE.lit (String.mk ('T' :: "-shaped".data)) := rfl
  rw [this]
  exact reSearch_lit_head_none 'T' "-shaped".data (pyLower d) (pyLower_no_T d)

lemma shapeOf_ne_l_bracket (d : String) : shapeOf (pyLower d) ≠ "l_bracket" := by
  unfold shapeOf
  rw [reSearch_l_bracket_lower, reSearch_t_bracket_lower]
  simp only [Option.isSome_none, Bool.false_eq_true, if_false]
  split_ifs <;> simp

lemma shapeOf_ne_t_bracket (d : String) : shapeOf (pyLower d) ≠ "t_bracket" := by
  unfold shapeOf
  rw [reSearch_l_bracket_lower, reSearch_t_bracket_lower]
  simp only [Option.isSome_none, Bool.false_eq_true, if_false]
  split_ifs <;> simp

def c8_description : String :=
  "rectangular plate 200mm by 100mm with 4 circular holes of 10mm diameter, positioned 20mm from each corner"

set_option maxRecDepth 100000 in
theorem c8_eval :
    parse_description c8_description =
      [("type", PyVal.str "rectangular"), ("features", PyVal.list []),
       ("width", PyVal.int 200), ("height", PyVal.int 100),
       ("hole_count", PyVal.int 4), ("corner_offset", PyVal.int 20)] := by
  rfl

/-- C3 counterexample: on the empty description (a total non-match), the
extractor returns shape_type 'rectangular', not 'unknown'. -/
theorem C3_counterexample :
    dictGet (parse_description "") "type" = some (PyVal.str "rectangular")
    ∧ dictGet (parse_description "") "type" ≠ some (PyVal.str "unknown") := by
  refine ⟨rfl, ?_⟩
  intro h
  rw [show dictGet (parse_description "") "type" = some (PyVal.str "rectangular") from rfl] at h
  simp at h

/-- C3 amended: when none of the five shape checks of the cascade fires,
the extractor returns shape_type 'rectangular': the initial 'unknown'
placeholder is always overwritten by the final else-branch. -/
theorem C3_total_non_match_rectangular (d : String)
    (h1 : reSearch patterns_l_bracket (pyLower d) = Option.none)
    (h2 : reSearch patterns_t_bracket (pyLower d) = Option.none)
    (h3 : reSearch patterns_triangular (pyLower d) = Option.none)
    (h4 : pyContains (pyLower d) "flange".data = false)
    (h5 : pyContains (pyLower d) "square".data = false) :
    dictGet (parse_description d) "type" = some (PyVal.str "rectangular") := by
  rw [parse_description_type]
  unfold shapeOf
  rw [h1, h2, h3, h4, h5]
  simp

theorem C3_total_non_match_rectangular_witness :
    dictGet (parse_description "plain plate") "type" = some (PyVal.str "rectangular") :=
  C3_total_non_match_rectangular "plain plate" rfl rfl rfl rfl rfl

/-- C4: the 'L-shaped' and 'T-shaped' markers are matched against the
lower-cased description, so they can never fire: the failing input
"L-shaped bracket 100mm by 50mm" is classified 'rectangular', and no
description at all is ever classified 'l_bracket' or 't_bracket'. -/
theorem C4_bracket_markers_dead :
    dictGet (parse_description "L-shaped bracket 100mm by 50mm") "type"
      = some (PyVal.str "rectangular")
    ∧ (∀ d : String, dictGet (parse_description d) "type" ≠ some (PyVal.str "l_bracket"))
    ∧ (∀ d : String, dictGet (parse_description d) "type" ≠ some (PyVal.str "t_bracket")) := by
  refine ⟨by rfl, ?_, ?_⟩
  · intro d h
    rw [parse_description_type] at h
    exact shapeOf_ne_l_bracket d (by simpa using h)
  · intro d h
    rw [parse_description_type] at h
    exact shapeOf_ne_t_bracket d (by simpa using h)

/-- C8: the end-to-end pattern-extractor scenario of the spec: type
rectangular, width 200, height 100, hole_count 4, corner_offset 20, and no
hole_diameter (the phrasing "holes of 10mm diameter" does not match the
"holes N diameter" pattern). -/
theorem C8_end_to_end :
    dictGet (parse_description c8_description) "type" = some (PyVal.str "rectangular")
    ∧ dictGet (parse_description c8_description) "width" = some (PyVal.int 200)
    ∧ dictGet (parse_description c8_description) "height" = some (PyVal.int 100)
    ∧ dictGet (parse_description c8_description) "hole_count" = some (PyVal.int 4)
    ∧ dictGet (parse_description c8_description) "corner_offset" = some (PyVal.int 20)
    ∧ dictGet (parse_description c8_description) "hole_diameter" = Option.none := by
  rw [c8_eval]
  exact ⟨rfl, rfl, rfl, rfl, rfl, rfl⟩

/-- C9 counterexample: on a description with no recognized extras the
result still carries a features entry (the empty list). -/
theorem C9_counterexample :
    dictGet (parse_description "") "features" ≠ Option.none
    ∧ dictGet (parse_description "") "features" = some (PyVal.list []) := by
  refine ⟨?_, rfl⟩
  intro h
  rw [show dictGet (parse_description "") "features" = some (PyVal.list []) from rfl] at h
  cases h

/-- C9 amended: the features key is always present in a pattern-extractor
result, and always as the empty list: no pattern ever appends a feature
tag. -/
theorem C9_features_always_present_empty (d : String) :
    dictGet (parse_description d) "features" = some (PyVal.list []) :=
  parse_description_features d

/-! ## Validator claims -/

lemma validate_params_no_error (js : PyDict → JsOutcome) (params : PyDict)
    (h : dictHas params "error" = false) :
    validate_params false js params = _validate_conservative params := by
  unfold validate_params
  rw [h]
  simp

/-- C10: CPython's bool-is-int subtyping leaks through the conservative
checks: True passes both the numeric check and the integer check, so
width=True or hole_count=True validate cleanly. -/
theorem C10_bool_passes_conservative :
    isNumberInst (PyVal.bool true) = true
    ∧ isIntInst (PyVal.bool true) = true
    ∧ _validate_conservative [("type", PyVal.str "rectangular"), ("width", PyVal.bool true)]
        = (true, [])
    ∧ _validate_conservative [("type", PyVal.str "rectangular"), ("hole_count", PyVal.bool true)]
        = (true, []) :=
  ⟨rfl, rfl, by rfl, by rfl⟩

/-- The three-independent-violations mapping of C5: a non-enumerated
shape type, a negative width and a non-integer hole_count. -/
def c5_bad_params : PyDict :=
  [("type", PyVal.str "circle"), ("width", PyVal.int (-5)),
   ("hole_count", PyVal.float (9 / 2))]

/-- C5 counterexample: on the three-violation mapping, the jsonschema path
of validate_params reports a single error, not one per problem; the
conservative path on the same mapping reports three. -/
theorem C5_counterexample :
    (validate_params true jsonschemaModel c5_bad_params).1 = false
    ∧ ((validate_params true jsonschemaModel c5_bad_params).2).length = 1
    ∧ ((validate_params false jsonschemaModel c5_bad_params).2).length = 3 :=
  ⟨by rfl, by rfl, by rfl⟩

/-- C5 amended: the conservative path accumulates (three errors on the
three-violation mapping, and in general every offending numeric field
contributes its error), while the jsonschema path returns at most one
error message per call, whatever the library reports. -/
theorem C5_accumulation :
    ((validate_params false jsonschemaModel c5_bad_params).2).length = 3
    ∧ (∀ (js : PyDict → JsOutcome) (params : PyDict) (field : String) (v : PyVal),
        field ∈ numeric_fields → dictGet params field = some v →
        isNumberInst v = false → dictHas params "error" = false →
        ("Field '" ++ field ++ "' must be a number, got " ++ typeName v)
          ∈ (validate_params false js params).2)
    ∧ (∀ (js : PyDict → JsOutcome) (params : PyDict),
        ((validate_params true js params).2).length ≤ 1) := by
  refine ⟨by rfl, ?_, ?_⟩
  · intro js params field v hf hget hv herr
    rw [validate_params_no_error js params herr]
    show ("Field '" ++ field ++ "' must be a number, got " ++ typeName v)
      ∈ typeFieldErrors params ++ numeric_fields.flatMap (numericFieldErrors params)
        ++ integer_fields.flatMap (integerFieldErrors params) ++ featuresFieldErrors params
    refine List.mem_append.mpr (Or.inl (List.mem_append.mpr
      (Or.inl (List.mem_append.mpr (Or.inr ?_)))))
    refine List.mem_flatMap.mpr ⟨field, hf, ?_⟩
    unfold numericFieldErrors
    rw [hget]
    simp [hv]
  · intro js params
    unfold validate_params
    split_ifs with h1 h2
    · simp
    · unfold _validate_with_jsonschema
      cases js params <;> simp
    · exact absurd rfl h2

/-- The C7 mapping: a fully valid ParameterSet plus the extra key 'error'. -/
def c7_error_params : PyDict :=
  [("type", PyVal.str "rectangular"), ("error", PyVal.str "parsing_failed")]

/-- C7 counterexample: the extra key 'error' makes validate_params fail in
both paths, although the conservative schema check itself accepts the
mapping. -/
theorem C7_counterexample :
    (validate_params false jsonschemaModel c7_error_params).1 = false
    ∧ (validate_params true jsonschemaModel c7_error_params).1 = false
    ∧ (validate_params false jsonschemaModel c7_error_params).2
        = ["params contains error: parsing_failed"]
    ∧ (_validate_conservative c7_error_params).1 = true :=
  ⟨by rfl, by rfl, by rfl, by rfl⟩

/-- C7 amended: in the conservative path, a valid shape_type plus
correctly-typed non-negative optional fields validates with an empty error
list regardless of unrecognized extra fields — except the reserved key
'error', whose presence always fails validation in either path. -/
theorem C7_open_schema_except_error :
    (∀ (js : PyDict → JsOutcome) (params : PyDict) (t : String),
      dictGet params "type" = some (PyVal.str t) → t ∈ VALID_TYPES →
      (∀ f v, f ∈ numeric_fields → dictGet params f = some v →
          isNumberInst v = true ∧ ¬ numValue v < 0) →
      (∀ v, dictGet params "hole_count" = some v →
          isIntInst v = true ∧ ¬ numValue v < 0) →
      (∀ v, dictGet params "features" = some v → ∃ xs, v = PyVal.list xs) →
      dictHas params "error" = false →
      validate_params false js params = (true, []))
    ∧ (∀ (avail : Bool) (js : PyDict → JsOutcome) (params : PyDict),
        dictHas params "error" = true → (validate_params avail js params).1 = false) := by
  constructor
  · intro js params t hget htv hnum hint hfeat herr
    rw [validate_params_no_error js params herr]
    have ht : typeFieldErrors params = [] := by
      unfold typeFieldErrors
      rw [hget]
      simp [htv]
    have hn : numeric_fields.flatMap (numericFieldErrors params) = [] := by
      refine List.flatMap_eq_nil_iff.mpr ?_
      intro f hf
      unfold numericFieldErrors
      cases hd : dictGet params f with
      | none => rfl
      | some v =>
        obtain ⟨h1, h2⟩ := hnum f v hf hd
        simp [h1, h2]
    have hi : integer_fields.flatMap (integerFieldErrors params) = [] := by
      refine List.flatMap_eq_nil_iff.mpr ?_
      intro f hf
      have hfe : f = "hole_count" := by simpa [integer_fields] using hf
      subst hfe
      unfold integerFieldErrors
      cases hd : dictGet params "hole_count" with
      | none => rfl
      | some v =>
        obtain ⟨h1, h2⟩ := hint v hd
        simp [h1, h2]
    have hfeats : featuresFieldErrors params = [] := by
      unfold featuresFieldErrors
      cases hd : dictGet params "features" with
      | none => rfl
      | some v =>
        obtain ⟨xs, rfl⟩ := hfeat v hd
        rfl
    show (decide ((typeFieldErrors params
      ++ numeric_fields.flatMap (numericFieldErrors params)
      ++ integer_fields.flatMap (integerFieldErrors params)
      ++ featuresFieldErrors params).length = 0),
      typeFieldErrors params
      ++ numeric_fields.flatMap (numericFieldErrors params)
      ++ integer_fields.flatMap (integerFieldErrors params)
      ++ featuresFieldErrors params) = (true, [])
    rw [ht, hn, hi, hfeats]
    rfl
  · intro avail js params herr
    unfold validate_params
    rw [herr]
    simp

theorem C7_open_schema_witness :
    validate_params false jsonschemaModel
      [("type", PyVal.str "unknown"), ("extra", PyVal.pynone)] = (true, []) :=
  C7_open_schema_except_error.1 jsonschemaModel
    [("type", PyVal.str "unknown"), ("extra", PyVal.pynone)] "unknown" rfl (by decide)
    (by
      intro f v hf hget
      fin_cases hf <;> simp [dictGet] at hget)
    (by
      intro v hv
      simp [dictGet] at hv)
    (by
      intro v hv
      simp [dictGet] at hv)
    rfl

/-! ## Claim C6 — the orchestrator's validation step -/

/-- The C6 mapping: a ParameterSet that already carries a non-empty
validation_errors list and fails schema validation. -/
def c6_params : PyDict :=
  [("type", PyVal.str "circle"), ("_source", PyVal.str "fallback_parser"),
   ("validation_errors", PyVal.list [PyVal.str "old error"])]

/-- C6 counterexample: the orchestrator overwrites validation_errors with
the validator's list; the previously-present "old error" is discarded, not
appended to. -/
theorem C6_counterexample :
    dictGet (cliValidateStep false false jsonschemaModel c6_params) "validation_errors"
      = some (PyVal.list [PyVal.str "Invalid type 'circle'. Must be one of: flange, l_bracket, rectangular, square, t_bracket, triangular, unknown"])
    ∧ dictGet (cliValidateStep false false jsonschemaModel c6_params) "validation_errors"
      ≠ some (PyVal.list [PyVal.str "old error",
          PyVal.str "Invalid type 'circle'. Must be one of: flange, l_bracket, rectangular, square, t_bracket, triangular, unknown"]) := by
  refine ⟨by rfl, ?_⟩
  intro h
  rw [show dictGet (cliValidateStep false false jsonschemaModel c6_params) "validation_errors"
      = some (PyVal.list [PyVal.str "Invalid type 'circle'. Must be one of: flange, l_bracket, rectangular, square, t_bracket, triangular, unknown"]) from rfl] at h
  simp at h

/-- C6 amended: unless told to skip, the orchestrator validates the
obtained ParameterSet and, on failure, REPLACES validation_errors with the
validator's error list; on success, and when skipping, the params pass
through unchanged; in every case the params are still returned
(validation failure is non-fatal). -/
theorem C6_validator_replaces_errors :
    (∀ (avail : Bool) (js : PyDict → JsOutcome) (params : PyDict),
      (validate_params avail js params).1 = false →
      cliValidateStep false avail js params
        = dictSet params "validation_errors"
            (PyVal.list (((validate_params avail js params).2).map PyVal.str)))
    ∧ (∀ (avail : Bool) (js : PyDict → JsOutcome) (params : PyDict),
      (validate_params avail js params).1 = true →
      cliValidateStep false avail js params = params)
    ∧ (∀ (avail : Bool) (js : PyDict → JsOutcome) (params : PyDict),
      cliValidateStep true avail js params = params) := by
  refine ⟨?_, ?_, ?_⟩
  · intro avail js params h
    simp [cliValidateStep, h]
  · intro avail js params h
    simp [cliValidateStep, h]
  · intro avail js params
    simp [cliValidateStep]

/-! ## Claim C2 — extract_parameters never escapes -/

lemma dictGet_appendError_ne (d : PyDict) (msg : String) (k : String)
    (h : k ≠ "validation_errors") :
    dictGet (appendError d msg) k = dictGet d k := by
  unfold appendError
  cases hd : dictGet d "validation_errors" with
  | none => rfl
  | some v =>
    cases v with
    | list xs => exact dictGet_dictSet_ne d "validation_errors" k _ h
    | str s => rfl
    | int n => rfl
    | bool b => rfl
    | float q => rfl
    | pynone => rfl

lemma mergeFallback_cons (r : PyDict) (kv : String × PyVal) (rest : PyDict) :
    mergeFallback r (kv :: rest)
      = mergeFallback
          (if kv.1 = "_source" ∨ kv.1 = "validation_errors" ∨ kv.1 = "raw_llm" then r
           else dictSet r kv.1 kv.2) rest := rfl

lemma dictGet_mergeFallback_meta (fb : PyDict) :
    ∀ (r : PyDict) (k : String),
    (k = "_source" ∨ k = "validation_errors" ∨ k = "raw_llm") →
    dictGet (mergeFallback r fb) k = dictGet r k := by
  induction fb with
  | nil => intro r k _; rfl
  | cons kv rest ih =>
    intro r k hk
    rw [mergeFallback_cons]
    by_cases hskip : kv.1 = "_source" ∨ kv.1 = "validation_errors" ∨ kv.1 = "raw_llm"
    · rw [if_pos hskip]
      exact ih r k hk
    · rw [if_neg hskip]
      rw [ih (dictSet r kv.1 kv.2) k hk]
      apply dictGet_dictSet_ne
      intro hkk
      exact hskip (hkk ▸ hk)

lemma dictGet_mergeFallback_not_mem (fb : PyDict) :
    ∀ (r : PyDict) (k : String), (∀ kv ∈ fb, kv.1 ≠ k) →
    dictGet (mergeFallback r fb) k = dictGet r k := by
  induction fb with
  | nil => intro r k _; rfl
  | cons kv rest ih =>
    intro r k h
    have hne : kv.1 ≠ k := h kv (List.mem_cons_self kv rest)
    have hrest : ∀ kv' ∈ rest, kv'.1 ≠ k :=
      fun kv' h' => h kv' (List.mem_cons_of_mem kv h')
    rw [mergeFallback_cons]
    by_cases hskip : kv.1 = "_source" ∨ kv.1 = "validation_errors" ∨ kv.1 = "raw_llm"
    · rw [if_pos hskip]
      exact ih r k hrest
    · rw [if_neg hskip]
      rw [ih (dictSet r kv.1 kv.2) k hrest]
      exact dictGet_dictSet_ne r kv.1 k kv.2 (fun hkk => hne hkk.symm)

lemma dictGet_eq_none_of_not_mem (d : PyDict) (k : String)
    (h : k ∉ d.map Prod.fst) : dictGet d k = Option.none := by
  induction d with
  | nil => rfl
  | cons kv rest ih =>
    simp only [List.map_cons, List.mem_cons, not_or] at h
    obtain ⟨kv1, kv2⟩ := kv
    show (if kv1 = k then some kv2 else dictGet rest k) = Option.none
    rw [if_neg (fun hh => h.1 hh.symm)]
    exact ih h.2

lemma dictGet_mergeFallback_mem (fb : PyDict) :
    ∀ (r : PyDict) (k : String) (v : PyVal),
    (fb.map Prod.fst).Nodup →
    dictGet fb k = some v →
    k ≠ "_source" → k ≠ "validation_errors" → k ≠ "raw_llm" →
    dictGet (mergeFallback r fb) k = some v := by
  induction fb with
  | nil => intro r k v _ hget _ _ _; cases hget
  | cons kv rest ih =>
    intro r k v hnodup hget h1 h2 h3
    obtain ⟨kv1, kv2⟩ := kv
    simp only [List.map_cons, List.nodup_cons] at hnodup
    rw [mergeFallback_cons]
    by_cases hk : kv1 = k
    · subst hk
      have hv : kv2 = v := by
        rw [show dictGet ((kv1, kv2) :: rest) kv1
            = (if kv1 = kv1 then some kv2 else dictGet rest kv1) from rfl,
          if_pos rfl] at hget
        exact Option.some.inj hget
      subst hv
      have hskip : ¬ (kv1 = "_source" ∨ kv1 = "validation_errors" ∨ kv1 = "raw_llm") := by
        rintro (h | h | h)
        · exact h1 h
        · exact h2 h
        · exact h3 h
      rw [if_neg hskip]
      rw [dictGet_mergeFallback_not_mem rest (dictSet r kv1 kv2) kv1
        (fun kv' hkv' hkk => hnodup.1 (hkk ▸ List.mem_map_of_mem Prod.fst hkv'))]
      exact dictGet_dictSet_self r kv1 kv2
    · have hget' : dictGet rest k = some v := by
        rw [show dictGet ((kv1, kv2) :: rest) k
            = (if kv1 = k then some kv2 else dictGet rest k) from rfl, if_neg hk] at hget
        exact hget
      by_cases hskip : kv1 = "_source" ∨ kv1 = "validation_errors" ∨ kv1 = "raw_llm"
      · rw [if_pos hskip]
        exact ih r k v hnodup.2 hget' h1 h2 h3
      · rw [if_neg hskip]
        exact ih (dictSet r kv1 kv2) k v hnodup.2 hget' h1 h2 h3

lemma keys_dictSet (d : PyDict) (k : String) (v : PyVal) :
    (dictSet d k v).map Prod.fst =
      if k ∈ d.map Prod.fst then d.map Prod.fst else d.map Prod.fst ++ [k] := by
  induction d with
  | nil => simp [dictSet]
  | cons kv rest ih =>
    obtain ⟨k0, v0⟩ := kv
    by_cases h0 : k0 = k
    · subst h0
      simp [dictSet]
    · have : ¬ k = k0 := fun hh => h0 hh.symm
      simp only [dictSet, if_neg h0, List.map_cons, List.mem_cons, this, false_or, ih]
      split_ifs <;> rfl

lemma nodup_keys_dictSet (d : PyDict) (k : String) (v : PyVal)
    (h : (d.map Prod.fst).Nodup) : ((dictSet d k v).map Prod.fst).Nodup := by
  rw [keys_dictSet]
  split_ifs with hk
  · exact h
  · simp [List.nodup_append, h, hk]

lemma nodup_keys_setIfMatch (d : PyDict) (k : String) (pat : RE) (desc : List Char)
    (h : (d.map Prod.fst).Nodup) :
    ((setIfMatch d k pat desc).map Prod.fst).Nodup := by
  unfold setIfMatch
  cases reSearch pat desc with
  | none => exact h
  | some l =>
    cases l with
    | nil => exact h
    | cons g1 gs => exact nodup_keys_dictSet d k _ h

lemma nodup_keys_shapeStep (r : PyDict) (desc : List Char)
    (h : (r.map Prod.fst).Nodup) : ((shapeStep r desc).map Prod.fst).Nodup := by
  unfold shapeStep
  split_ifs <;> exact nodup_keys_dictSet r "type" _ h

lemma nodup_keys_rectBlock (r : PyDict) (desc : List Char)
    (h : (r.map Prod.fst).Nodup) : ((rectBlock r desc).map Prod.fst).Nodup := by
  unfold rectBlock
  split_ifs
  · cases reSearch patterns_rectangle desc with
    | none => exact h
    | some l =>
      cases l with
      | nil => exact h
      | cons g1 gs =>
        cases gs with
        | nil => exact h
        | cons g2 gs' => exact nodup_keys_dictSet _ _ _ (nodup_keys_dictSet _ _ _ h)
  · exact h

lemma nodup_keys_squareBlock (r : PyDict) (desc : List Char)
    (h : (r.map Prod.fst).Nodup) : ((squareBlock r desc).map Prod.fst).Nodup := by
  unfold squareBlock
  split_ifs
  · cases reSearch patterns_square desc with
    | none => exact h
    | some l =>
      cases l with
      | nil => exact h
      | cons g1 gs => exact nodup_keys_dictSet _ _ _ (nodup_keys_dictSet _ _ _ h)
  · exact h

lemma nodup_keys_flangeBlock (r : PyDict) (desc : List Char)
    (h : (r.map Prod.fst).Nodup) : ((flangeBlock r desc).map Prod.fst).Nodup := by
  unfold flangeBlock
  split_ifs
  · exact nodup_keys_setIfMatch _ _ _ _ (nodup_keys_setIfMatch _ _ _ _ h)
  · exact h

lemma parse_description_nodup (d : String) :
    ((parse_description d).map Prod.fst).Nodup := by
  unfold parse_description
  refine nodup_keys_setIfMatch _ _ _ _ (nodup_keys_setIfMatch _ _ _ _
    (nodup_keys_setIfMatch _ _ _ _ (nodup_keys_setIfMatch _ _ _ _
    (nodup_keys_setIfMatch _ _ _ _ (nodup_keys_setIfMatch _ _ _ _
    (nodup_keys_flangeBlock _ _ (nodup_keys_squareBlock _ _
    (nodup_keys_rectBlock _ _ (nodup_keys_shapeStep _ _ ?_)))))))))
  decide

lemma llmAttempt_inl (env : LLMEnv) (d : String) (params : PyDict)
    (ha : llmAttempt env d = Sum.inl params) :
    dictGet params "_source" = some (PyVal.str "llm")
    ∧ dictGet params "validation_errors" = some (PyVal.list []) := by
  unfold llmAttempt at ha
  dsimp only at ha
  split at ha
  · split at ha
    · simp at ha
    · split at ha
      · simp at ha
      · split at ha
        · simp at ha
        · split at ha
          · simp only [Sum.inl.injEq] at ha
            subst ha
            constructor
            · rw [dictGet_dictSet_ne _ _ _ _ (by simp), dictGet_dictSet_self]
            · rw [dictGet_dictSet_self]
          · simp at ha
  · simp at ha

lemma llmAttempt_inr_source (env : LLMEnv) (d : String) (r : PyDict)
    (ha : llmAttempt env d = Sum.inr r) :
    dictGet r "_source" = some (PyVal.str "fallback_parser") := by
  unfold llmAttempt at ha
  dsimp only at ha
  split at ha
  · split at ha
    · simp only [Sum.inr.injEq] at ha
      subst ha
      rfl
    · split at ha
      · simp only [Sum.inr.injEq] at ha
        subst ha
        rfl
      · split at ha
        · simp only [Sum.inr.injEq] at ha
          subst ha
          rfl
        · split at ha
          · simp at ha
          · simp only [Sum.inr.injEq] at ha
            subst ha
            rfl
  · simp only [Sum.inr.injEq] at ha
    subst ha
    rfl

/-- C2: extract_parameters is total and two-valued: either the generative
attempt succeeds end to end (JSON found, parsed, validated), in which case
the parsed params are returned with _source 'llm' and empty
validation_errors — the only success exit — or the attempt fails at any
stage, in which case the result is the failure-metadata dictionary
(_source 'fallback_parser', the accumulated validation_errors, raw_llm as
set by the failed attempt, all preserved by the merge) with every
non-metadata field of the fallback parse merged in. -/
theorem C2_extract_parameters_total (env : LLMEnv) (d : String) :
    (∃ params, llmAttempt env d = Sum.inl params
      ∧ extract_parameters env d = params
      ∧ dictGet (extract_parameters env d) "_source" = some (PyVal.str "llm")
      ∧ dictGet (extract_parameters env d) "validation_errors" = some (PyVal.list []))
    ∨ (∃ r, llmAttempt env d = Sum.inr r
      ∧ extract_parameters env d = mergeFallback r (parse_description d)
      ∧ dictGet (extract_parameters env d) "_source" = some (PyVal.str "fallback_parser")
      ∧ dictGet (extract_parameters env d) "validation_errors" = dictGet r "validation_errors"
      ∧ dictGet (extract_parameters env d) "raw_llm" = dictGet r "raw_llm"
      ∧ (∀ k v, dictGet (parse_description d) k = some v →
          k ≠ "_source" → k ≠ "validation_errors" → k ≠ "raw_llm" →
          dictGet (extract_parameters env d) k = some v)) := by
  cases ha : llmAttempt env d with
  | inl params =>
    left
    have he : extract_parameters env d = params := by
      unfold extract_parameters
      rw [ha]
    obtain ⟨h1, h2⟩ := llmAttempt_inl env d params ha
    exact ⟨params, rfl, he, he ▸ h1, he ▸ h2⟩
  | inr r =>
    right
    have he : extract_parameters env d = mergeFallback r (parse_description d) := by
      unfold extract_parameters
      rw [ha]
    refine ⟨r, rfl, he, ?_, ?_, ?_, ?_⟩
    · rw [he, dictGet_mergeFallback_meta (parse_description d) r "_source" (Or.inl rfl)]
      exact llmAttempt_inr_source env d r ha
    · rw [he, dictGet_mergeFallback_meta (parse_description d) r "validation_errors"
        (Or.inr (Or.inl rfl))]
    · rw [he, dictGet_mergeFallback_meta (parse_description d) r "raw_llm"
        (Or.inr (Or.inr rfl))]
    · intro k v hget h1 h2 h3
      rw [he]
      exact dictGet_mergeFallback_mem (parse_description d) r k v
        (parse_description_nodup d) hget h1 h2 h3
